import Mathlib

/-!
Verification development for the SMS Gammu gateway support module
(`src/sms-gammu-gateway/support.py`).

The module is a glue layer over the external gammu modem driver.  We embed
the module's functions (`init_state_machine`, `retrieveAllSms`, `deleteSms`)
shallowly: the opaque driver is a record of responses (status query, stored
fragments enumerated in driver order, per-location deletion results,
security status, PIN entry), and each Python function becomes a Lean
function over that record.  Machine-level effects (prints, raised
exceptions, process exit) are made explicit in return types.
-/

namespace SmsGateway

/-- Errors raised by the external gammu driver.  `ERR_NOSIM` is the
distinguished "SIM card not accessible" condition tested by
`init_state_machine`; `ERR_EMPTY` is raised by `GetNextSMS` when no further
message exists; `other` covers every remaining driver exception. -/
inductive GammuError where
  | ERR_NOSIM
  | ERR_EMPTY
  | other (msg : String)
  deriving Repr, DecidableEq

/-- Result of `machine.GetSMSStatus()`: the three stored-message counters
read by `retrieveAllSms` (support.py line 147). -/
structure SmsStatus where
  SIMUsed : Nat
  PhoneUsed : Nat
  TemplatesUsed : Nat
  deriving Repr, DecidableEq

/-- One raw stored SMS fragment as returned by `machine.GetNextSMS`:
storage location, timestamp (already stringified — the Python code only
ever applies `str` to it), sender number, delivery state, raw text, and
the concatenation reference used by `gammu.LinkSMS` to link multi-part
messages (`none` for a standalone fragment). -/
structure Fragment where
  Location : Nat
  DateTime : String
  Number : String
  State : String
  Text : String
  RefId : Option Nat
  deriving Repr, DecidableEq

/-- One entry of a decoded SMS as returned by `gammu.DecodeSMS`: an
optional text buffer (support.py lines 178-180 skip `None` buffers). -/
structure DecodeEntry where
  Buffer : Option String
  deriving Repr, DecidableEq

/-- Result of `gammu.DecodeSMS` when it does not return `None`. -/
structure DecodedSms where
  Entries : List DecodeEntry
  deriving Repr, DecidableEq

/-- The opaque gammu state machine handle together with the driver
behaviour visible to `retrieveAllSms` and `deleteSms`: the status-query
response, the stored fragments in the driver's enumeration order, and the
outcome of `DeleteSMS` at each location. -/
structure Machine where
  smsStatus : Except GammuError SmsStatus
  storedSms : List Fragment
  deleteResult : Nat → Except GammuError Unit

/-- Driver model of `machine.GetNextSMS(Folder=0, ...)`.  With
`Start=True` (request `none`) it returns the first stored fragment; with
`Location=loc` it returns the fragment following the one stored at `loc`
in the driver's enumeration order; it raises `ERR_EMPTY` when no such
fragment exists.  The driver is external to the repository; this models
the spec's "get next message" capability fragment-by-fragment. -/
def getNextSMS (m : Machine) : Option Nat → Except GammuError Fragment
  | none =>
    match m.storedSms with
    | [] => .error .ERR_EMPTY
    | f :: _ => .ok f
  | some loc =>
    match m.storedSms.findIdx? (fun f => f.Location == loc) with
    | none => .error .ERR_EMPTY
    | some i =>
      match m.storedSms[i + 1]? with
      | none => .error .ERR_EMPTY
      | some f => .ok f

/-- Expected total fragment count computed by `retrieveAllSms`
(support.py line 147): `status['SIMUsed'] + status['PhoneUsed'] +
status['TemplatesUsed']`. -/
def expectedCount (s : SmsStatus) : Nat :=
  s.SIMUsed + s.PhoneUsed + s.TemplatesUsed

/-- The `while len(allMultiPartSms) < allMultiPartSmsCount` loop of
`retrieveAllSms` (support.py lines 152-158).  Each iteration appends
exactly one fetched element, so the loop runs exactly `expectedCount`
iterations unless a fetch raises.  The trace records, for every fetch,
the continuation point passed to the driver (`none` for `Start=True`,
`some loc` for `Location=loc`) paired with the fragment returned. -/
def fetchLoop (m : Machine) (prev : Option Nat) :
    Nat → Except GammuError (List (Option Nat × Fragment))
  | 0 => .ok []
  | n + 1 =>
    match getNextSMS m prev with
    | .error e => .error e
    | .ok f =>
      match fetchLoop m (some f.Location) n with
      | .error e => .error e
      | .ok rest => .ok ((prev, f) :: rest)

/-- Modelled from the spec: `gammu.LinkSMS` is external driver code.  The
spec says fragments are linked "into logical messages using concatenation
metadata", every group holding the fragments of one logical message with
"order preserves fragment sequence".  We model it as grouping fragments
that carry the same concatenation reference, in arrival order, standalone
fragments forming singleton groups.  Helper: insert one fragment into the
group list. -/
def addFrag : List (List Fragment) → Fragment → List (List Fragment)
  | [], f => [[f]]
  | g :: gs, f =>
    match f.RefId, g.head? with
    | some r, some h =>
      if h.RefId == some r then (g ++ [f]) :: gs else g :: addFrag gs f
    | _, _ => g :: addFrag gs f

/-- Modelled from the spec: `gammu.LinkSMS` (see `addFrag`).  Partitions
the fetched fragments into logical-message groups. -/
def linkSMS (frags : List Fragment) : List (List Fragment) :=
  frags.foldl addFrag []

/-- Modelled from the spec: `gammu.DecodeSMS` is external driver code.
The spec says text is "decoded if segments use a non-trivial encoding,
else raw text" and that decoding can "yield nothing" (Python `None`).  We
model: a standalone fragment group (no concatenation reference) uses the
trivial encoding, so decoding yields nothing; a concatenated group decodes
to one buffer entry per fragment. -/
def decodeSMS (sms : List Fragment) : Option DecodedSms :=
  match sms.head? with
  | none => none
  | some h =>
    match h.RefId with
    | none => none
    | some _ => some { Entries := sms.map (fun f => { Buffer := some f.Text }) }

/-- Logical message as assembled by `retrieveAllSms` (support.py lines
166-182): the `result` dict with keys `Date`, `Number`, `State`,
`Locations`, `Text`. -/
structure SmsResult where
  Date : String
  Number : String
  State : String
  Locations : List Nat
  Text : String
  deriving Repr, DecidableEq

/-- Concatenation of the non-null decoded entry buffers (support.py lines
177-180): `text = ""` then `text += entry['Buffer']` for every entry whose
buffer is not `None`. -/
def joinBuffers (entries : List DecodeEntry) : String :=
  entries.foldl
    (fun t e =>
      match e.Buffer with
      | none => t
      | some b => t ++ b)
    ""

/-- Assembly of one `result` dict from a linked group `sms` whose first
fragment (`smsPart = sms[0]`) is `h` (support.py lines 164-182). -/
def mkResult (h : Fragment) (g : List Fragment) : SmsResult :=
  { Date := h.DateTime
    Number := h.Number
    State := h.State
    Locations := g.map Fragment.Location
    Text :=
      match decodeSMS g with
      | none => h.Text
      | some d => joinBuffers d.Entries }

/-- The `for sms in allSms` result-building loop of `retrieveAllSms`
(support.py lines 163-184).  Accessing `sms[0]` on an empty group would
raise an `IndexError`, which the surrounding `try` re-raises. -/
def buildResults : List (List Fragment) → Except GammuError (List SmsResult)
  | [] => .ok []
  | g :: gs =>
    match g.head? with
    | none => .error (.other "IndexError")
    | some h =>
      match buildResults gs with
      | .error e => .error e
      | .ok rest => .ok (mkResult h g :: rest)

/-- Embedding of `retrieveAllSms` (support.py lines 143-190): query the
status, fetch `expectedCount` fragments one by one, link them, and build
one result per logical message.  Any driver error propagates (the Python
`except` clause logs and re-raises). -/
def retrieveAllSms (m : Machine) : Except GammuError (List SmsResult) :=
  match m.smsStatus with
  | .error e => .error e
  | .ok status =>
    match fetchLoop m none (expectedCount status) with
    | .error e => .error e
    | .ok tr => buildResults (linkSMS (tr.map Prod.snd))

/-- The `list(map(lambda location: machine.DeleteSMS(...), sms["Locations"]))`
body of `deleteSms` (support.py line 196).  Returns the trace of locations
for which `DeleteSMS` was actually invoked, and the driver exception that
escaped the `list(map(...))`, if any: Python's `list` forces the map
left-to-right and the first raising call aborts the rest. -/
def deleteLoop (m : Machine) : List Nat → List Nat × Option GammuError
  | [] => ([], none)
  | l :: ls =>
    match m.deleteResult l with
    | .error e => ([l], some e)
    | .ok _ =>
      match deleteLoop m ls with
      | (rest, err) => (l :: rest, err)

/-- Embedding of `deleteSms` (support.py lines 193-198): run the deletion
loop over `sms["Locations"]`; the `except Exception` clause swallows any
driver error (it is only printed), so the function always returns
normally.  The value is the trace of issued `DeleteSMS` calls. -/
def deleteSms (m : Machine) (sms : SmsResult) : List Nat :=
  (deleteLoop m sms.Locations).1

/-- The gammu handle and driver behaviour visible to
`init_state_machine`: the outcome of `sm.Init()`, of
`sm.GetSecurityStatus()`, and of `sm.EnterSecurityCode('PIN', pin)`. -/
structure InitMachine where
  initResult : Except GammuError Unit
  securityStatus : Except GammuError String
  enterPin : String → Except GammuError Unit

/-- Observable outcome of `init_state_machine`: the function returns the
(non-null) state-machine handle, or the process exits with the given
status via `sys.exit`, or a driver exception is re-raised to the
caller. -/
inductive InitOutcome where
  | returned
  | exited (code : Nat)
  | raised (e : GammuError)
  deriving Repr, DecidableEq

/-- Embedding of `init_state_machine` (support.py lines 80-140).  Control
flow: `sm.Init()` raising `ERR_NOSIM` is caught and the handle returned;
any other `Init` exception is re-raised after the diagnostic device
listing.  On successful `Init`, the security check runs inside an inner
`try`: a failing `GetSecurityStatus` (or a failing `EnterSecurityCode`) is
caught by `except Exception` and the handle is still returned; a `'PIN'`
status with a missing or empty pin calls `sys.exit(1)` — `SystemExit` does
not derive `Exception`, so no handler catches it and the process
terminates. -/
def init_state_machine (pin : Option String) (m : InitMachine) : InitOutcome :=
  match m.initResult with
  | .error .ERR_NOSIM => .returned
  | .error e => .raised e
  | .ok _ =>
    match m.securityStatus with
    | .error _ => .returned
    | .ok st =>
      if st = "PIN" then
        match pin with
        | none => .exited 1
        | some p =>
          if p = "" then .exited 1
          else
            match m.enterPin p with
            | .ok _ => .returned
            | .error _ => .returned
      else .returned

/-! Concrete driver instances used by witnesses and counterexamples.
`M1` realises the spec's scenario: three stored fragments, two belonging
to one concatenated message and one standalone. -/

/-- First fragment of the concatenated message stored on `M1`. -/
def F1 : Fragment :=
  { Location := 1, DateTime := "d1", Number := "n1", State := "s1",
    Text := "t1", RefId := some 7 }

/-- Second fragment of the concatenated message stored on `M1`. -/
def F2 : Fragment :=
  { Location := 2, DateTime := "d2", Number := "n2", State := "s2",
    Text := "t2", RefId := some 7 }

/-- Standalone fragment stored on `M1`. -/
def F3 : Fragment :=
  { Location := 3, DateTime := "d3", Number := "n3", State := "s3",
    Text := "t3", RefId := none }

/-- Healthy driver holding three fragments (two concatenated plus one
standalone); every deletion succeeds. -/
def M1 : Machine :=
  { smsStatus := .ok { SIMUsed := 3, PhoneUsed := 0, TemplatesUsed := 0 }
    storedSms := [F1, F2, F3]
    deleteResult := fun _ => .ok () }

/-- The two-fragment logical message that `retrieveAllSms M1` returns. -/
def R1 : SmsResult :=
  { Date := "d1", Number := "n1", State := "s1", Locations := [1, 2],
    Text := "t1t2" }

/-- The standalone logical message that `retrieveAllSms M1` returns. -/
def R2 : SmsResult :=
  { Date := "d3", Number := "n3", State := "s3", Locations := [3],
    Text := "t3" }

/-- The fetch trace produced while retrieving from `M1`: first request
from the start, then continuation at location 1, then at location 2. -/
def T1 : List (Option Nat × Fragment) :=
  [(none, F1), (some 1, F2), (some 2, F3)]

/-- Driver whose `DeleteSMS` fails at location 1 and succeeds
elsewhere. -/
def MDel : Machine :=
  { smsStatus := .error .ERR_EMPTY
    storedSms := []
    deleteResult := fun l =>
      if l = 1 then .error (.other "delete failed") else .ok () }

/-- Driver whose status query raises. -/
def Mbad : Machine :=
  { smsStatus := .error (.other "status failed")
    storedSms := []
    deleteResult := fun _ => .ok () }

/-- Driver whose status query promises one stored fragment while no
fragment is actually stored, so the fetch loop's first `GetNextSMS`
raises `ERR_EMPTY`. -/
def MEmpty : Machine :=
  { smsStatus := .ok { SIMUsed := 1, PhoneUsed := 0, TemplatesUsed := 0 }
    storedSms := []
    deleteResult := fun _ => .ok () }

/-- Initialization driver: `Init` succeeds and the SIM reports that a PIN
is required. -/
def IM1 : InitMachine :=
  { initResult := .ok ()
    securityStatus := .ok "PIN"
    enterPin := fun _ => .ok () }

/-- Initialization driver: `Init` raises the no-SIM condition. -/
def IM2 : InitMachine :=
  { initResult := .error .ERR_NOSIM
    securityStatus := .error .ERR_NOSIM
    enterPin := fun _ => .ok () }

/-- Initialization driver: `Init` raises a non-NOSIM error. -/
def IM3 : InitMachine :=
  { initResult := .error (.other "no device")
    securityStatus := .error .ERR_NOSIM
    enterPin := fun _ => .ok () }

/-! Helper lemmas about the fetch loop, the linking model, the
result-building loop and the deletion loop. -/

/-- A successful run of the fetch loop fetches exactly as many fragments
as requested: the `while` guard `len(allMultiPartSms) < count` admits
exactly `count` iterations, each appending one element. -/
lemma fetchLoop_length (m : Machine) :
    ∀ (n : Nat) (prev : Option Nat) (tr : List (Option Nat × Fragment)),
      fetchLoop m prev n = .ok tr → tr.length = n := by
  intro n
  induction n with
  | zero =>
    intro prev tr h
    simp only [fetchLoop] at h
    cases h
    rfl
  | succ k ih =>
    intro prev tr h
    unfold fetchLoop at h
    split at h
    · cases h
    · rename_i f hg
      split at h
      · cases h
      · rename_i rest hr
        cases h
        simp [ih (some f.Location) rest hr]

/-- Chaining invariant of the fetch loop: the first fetch uses the given
continuation point, and every later fetch passes the location of the
fragment returned by the previous fetch. -/
lemma fetchLoop_chain (m : Machine) :
    ∀ (n : Nat) (prev : Option Nat) (tr : List (Option Nat × Fragment)),
      fetchLoop m prev n = .ok tr →
      (∀ p, tr[0]? = some p → p.1 = prev) ∧
      (∀ (i : Nat), ∀ p q, tr[i]? = some p → tr[i + 1]? = some q →
        q.1 = some p.2.Location) := by
  intro n
  induction n with
  | zero =>
    intro prev tr h
    simp only [fetchLoop] at h
    cases h
    constructor
    · intro p hp; simp at hp
    · intro i p q hp _; simp at hp
  | succ k ih =>
    intro prev tr h
    unfold fetchLoop at h
    split at h
    · cases h
    · rename_i f hg
      split at h
      · cases h
      · rename_i rest hr
        cases h
        obtain ⟨ih1, ih2⟩ := ih (some f.Location) rest hr
        constructor
        · intro p hp
          simp only [List.getElem?_cons_zero, Option.some.injEq] at hp
          rw [← hp]
        · intro i p q hp hq
          cases i with
          | zero =>
            simp only [List.getElem?_cons_zero, Option.some.injEq] at hp
            simp only [List.getElem?_cons_succ] at hq
            rw [← hp]
            exact ih1 q hq
          | succ j =>
            simp only [List.getElem?_cons_succ] at hp hq
            exact ih2 j p q hp hq

/-- Inserting one fragment into the group list grows the total fragment
count by exactly one. -/
lemma addFrag_sum (f : Fragment) :
    ∀ gs : List (List Fragment),
      ((addFrag gs f).map List.length).sum = (gs.map List.length).sum + 1 := by
  intro gs
  induction gs with
  | nil => simp [addFrag]
  | cons g gs ih =>
    unfold addFrag
    cases hf : f.RefId with
    | none => simp [ih]; omega
    | some r =>
      cases hh : g.head? with
      | none => simp [ih]; omega
      | some h =>
        by_cases hc : h.RefId == some r
        · simp [hc]; omega
        · simp [hc, ih]; omega

/-- Folding the group insertion over a fragment list adds one fragment
per list element to the total count. -/
lemma foldl_addFrag_sum (l : List Fragment) :
    ∀ acc : List (List Fragment),
      ((l.foldl addFrag acc).map List.length).sum
        = (acc.map List.length).sum + l.length := by
  induction l with
  | nil => intro acc; simp
  | cons f l ih =>
    intro acc
    simp only [List.foldl_cons, List.length_cons]
    rw [ih (addFrag acc f), addFrag_sum]
    omega

/-- The linking model partitions its input: the group lengths sum to the
number of fragments linked. -/
lemma linkSMS_sum (l : List Fragment) :
    ((linkSMS l).map List.length).sum = l.length := by
  unfold linkSMS
  rw [foldl_addFrag_sum]
  simp

/-- On success, the result-building loop pairs the `i`-th result with the
`i`-th linked group: the result is exactly `mkResult` of the group's first
fragment and the group. -/
lemma buildResults_get :
    ∀ (gs : List (List Fragment)) (rs : List SmsResult),
      buildResults gs = .ok rs →
      ∀ (i : Nat) (g : List Fragment) (r : SmsResult),
        gs[i]? = some g → rs[i]? = some r →
        ∃ hd, g.head? = some hd ∧ r = mkResult hd g := by
  intro gs
  induction gs with
  | nil =>
    intro rs hb i g r hg
    simp at hg
  | cons g0 gs ih =>
    intro rs hb i g r hg hr
    unfold buildResults at hb
    split at hb
    · cases hb
    · rename_i h0 hh
      split at hb
      · cases hb
      · rename_i rest hrec
        cases hb
        cases i with
        | zero =>
          simp only [List.getElem?_cons_zero, Option.some.injEq] at hg hr
          subst hg
          exact ⟨h0, hh, hr.symm⟩
        | succ j =>
          simp only [List.getElem?_cons_succ] at hg hr
          exact ih rest hrec j g r hg hr

/-- On success, the result-building loop returns one result per group,
and each result carries one location per fragment of its group. -/
lemma buildResults_lengths :
    ∀ (gs : List (List Fragment)) (rs : List SmsResult),
      buildResults gs = .ok rs →
      rs.map (fun r => r.Locations.length) = gs.map List.length := by
  intro gs
  induction gs with
  | nil =>
    intro rs hb
    simp only [buildResults] at hb
    cases hb
    rfl
  | cons g0 gs ih =>
    intro rs hb
    unfold buildResults at hb
    split at hb
    · cases hb
    · rename_i h0 hh
      split at hb
      · cases hb
      · rename_i rest hrec
        cases hb
        simp [mkResult, ih rest hrec]

/-- Anatomy of a successful retrieval: the status query succeeded, the
fetch loop succeeded on the expected count, and the results were built
from the linked fetched fragments. -/
lemma retrieve_ok_spec (m : Machine) (results : List SmsResult)
    (h : retrieveAllSms m = .ok results) :
    ∃ status tr, m.smsStatus = .ok status ∧
      fetchLoop m none (expectedCount status) = .ok tr ∧
      buildResults (linkSMS (tr.map Prod.snd)) = .ok results := by
  unfold retrieveAllSms at h
  split at h
  · cases h
  · rename_i status hs
    split at h
    · cases h
    · rename_i tr hf
      exact ⟨status, tr, hs, hf, h⟩

/-- When every location's deletion succeeds, the deletion loop visits all
locations and no exception escapes. -/
lemma deleteLoop_all_ok (m : Machine) :
    ∀ ls : List Nat, (∀ l ∈ ls, m.deleteResult l = .ok ()) →
      deleteLoop m ls = (ls, none) := by
  intro ls
  induction ls with
  | nil => intro _; rfl
  | cons l ls ih =>
    intro hok
    unfold deleteLoop
    rw [hok l (by simp), ih (fun x hx => hok x (by simp [hx]))]

/-- When the deletions before `l` succeed and deleting `l` raises, the
deletion loop stops right after `l`: the locations of `rest` are never
attempted and the exception escapes the `list(map(...))`. -/
lemma deleteLoop_fail (m : Machine) (e : GammuError) :
    ∀ (pre : List Nat) (l : Nat) (rest : List Nat),
      (∀ x ∈ pre, m.deleteResult x = .ok ()) →
      m.deleteResult l = .error e →
      deleteLoop m (pre ++ l :: rest) = (pre ++ [l], some e) := by
  intro pre
  induction pre with
  | nil =>
    intro l rest _ hl
    simp only [List.nil_append]
    unfold deleteLoop
    rw [hl]
  | cons p pre ih =>
    intro l rest hok hl
    simp only [List.cons_append]
    unfold deleteLoop
    rw [hok p (by simp), ih l rest (fun x hx => hok x (by simp [hx])) hl]

/-! Claim theorems and their witnesses. -/

/-- C1: for every retrieval call on an initialized handle, `retrieveAllSms`
computes the expected total fragment count as the sum of the SIM-resident,
device-resident and template-resident counts from the driver's status
query; the fetch loop stops exactly when the number of fetched fragments
reaches that expected total; and the total number of fragments (locations)
across all returned logical messages equals that expected total. -/
theorem retrieveAllSms_total_count (m : Machine) (results : List SmsResult)
    (h : retrieveAllSms m = .ok results) :
    ∃ status tr, m.smsStatus = .ok status ∧
      expectedCount status
        = status.SIMUsed + status.PhoneUsed + status.TemplatesUsed ∧
      fetchLoop m none (expectedCount status) = .ok tr ∧
      tr.length = expectedCount status ∧
      (results.map (fun r => r.Locations.length)).sum = expectedCount status := by
  obtain ⟨status, tr, hs, hf, hb⟩ := retrieve_ok_spec m results h
  refine ⟨status, tr, hs, rfl, hf, fetchLoop_length m _ _ _ hf, ?_⟩
  rw [buildResults_lengths _ _ hb, linkSMS_sum]
  simpa using fetchLoop_length m _ _ _ hf

/-- Witness for C1 at the concrete three-fragment driver `M1`. -/
theorem retrieveAllSms_total_count_witness :
    ∃ status tr, M1.smsStatus = .ok status ∧
      expectedCount status
        = status.SIMUsed + status.PhoneUsed + status.TemplatesUsed ∧
      fetchLoop M1 none (expectedCount status) = .ok tr ∧
      tr.length = expectedCount status ∧
      (([R1, R2]).map (fun r => r.Locations.length)).sum = expectedCount status :=
  retrieveAllSms_total_count M1 [R1, R2] rfl

/-- C5: in the retrieval loop of `retrieveAllSms`, the first driver fetch
requests messages from the start (continuation point `none`), and every
subsequent fetch passes as continuation point the location of the fragment
returned by the previous fetch. -/
theorem retrieveAllSms_fetch_requests (m : Machine) (results : List SmsResult)
    (h : retrieveAllSms m = .ok results) :
    ∃ status tr, m.smsStatus = .ok status ∧
      fetchLoop m none (expectedCount status) = .ok tr ∧
      (∀ p, tr[0]? = some p → p.1 = none) ∧
      (∀ (i : Nat), ∀ p q, tr[i]? = some p → tr[i + 1]? = some q →
        q.1 = some p.2.Location) := by
  obtain ⟨status, tr, hs, hf, _⟩ := retrieve_ok_spec m results h
  obtain ⟨h1, h2⟩ := fetchLoop_chain m (expectedCount status) none tr hf
  exact ⟨status, tr, hs, hf, h1, h2⟩

/-- Witness for C5 at the concrete three-fragment driver `M1`. -/
theorem retrieveAllSms_fetch_requests_witness :
    ∃ status tr, M1.smsStatus = .ok status ∧
      fetchLoop M1 none (expectedCount status) = .ok tr ∧
      (∀ p, tr[0]? = some p → p.1 = none) ∧
      (∀ (i : Nat), ∀ p q, tr[i]? = some p → tr[i + 1]? = some q →
        q.1 = some p.2.Location) :=
  retrieveAllSms_fetch_requests M1 [R1, R2] rfl

/-- C4: for every logical message returned by `retrieveAllSms`, whenever
decoding the message yields nothing the returned `Text` equals the raw
text of the message's first fragment, and otherwise it equals the
concatenation of the non-null decoded entry buffers. -/
theorem retrieveAllSms_text_decode (m : Machine) (results : List SmsResult)
    (h : retrieveAllSms m = .ok results) :
    ∃ status tr, m.smsStatus = .ok status ∧
      fetchLoop m none (expectedCount status) = .ok tr ∧
      ∀ (i : Nat), ∀ g r, (linkSMS (tr.map Prod.snd))[i]? = some g →
        results[i]? = some r →
        ∃ hd, g.head? = some hd ∧
          (decodeSMS g = none → r.Text = hd.Text) ∧
          (∀ d, decodeSMS g = some d → r.Text = joinBuffers d.Entries) := by
  obtain ⟨status, tr, hs, hf, hb⟩ := retrieve_ok_spec m results h
  refine ⟨status, tr, hs, hf, ?_⟩
  intro i g r hg hr
  obtain ⟨hd, hhd, hmk⟩ := buildResults_get _ _ hb i g r hg hr
  subst hmk
  refine ⟨hd, hhd, ?_, ?_⟩
  · intro hdec
    simp [mkResult, hdec]
  · intro d hdec
    simp [mkResult, hdec]

/-- Witness for C4 at the concrete three-fragment driver `M1` (both
decode branches are exercised: the concatenated message decodes, the
standalone one falls back to raw text). -/
theorem retrieveAllSms_text_decode_witness :
    ∃ status tr, M1.smsStatus = .ok status ∧
      fetchLoop M1 none (expectedCount status) = .ok tr ∧
      ∀ (i : Nat), ∀ g r, (linkSMS (tr.map Prod.snd))[i]? = some g →
        ([R1, R2])[i]? = some r →
        ∃ hd, g.head? = some hd ∧
          (decodeSMS g = none → r.Text = hd.Text) ∧
          (∀ d, decodeSMS g = some d → r.Text = joinBuffers d.Entries) :=
  retrieveAllSms_text_decode M1 [R1, R2] rfl

/-- C10: for every logical message returned by `retrieveAllSms`, the
exposed `Date`, `Number` and `State` fields are taken from the first
fragment of the linked fragment group, regardless of the values carried
by later fragments of the same message. -/
theorem retrieveAllSms_header_fields (m : Machine) (results : List SmsResult)
    (h : retrieveAllSms m = .ok results) :
    ∃ status tr, m.smsStatus = .ok status ∧
      fetchLoop m none (expectedCount status) = .ok tr ∧
      ∀ (i : Nat), ∀ g r, (linkSMS (tr.map Prod.snd))[i]? = some g →
        results[i]? = some r →
        ∃ hd, g.head? = some hd ∧
          r.Date = hd.DateTime ∧ r.Number = hd.Number ∧ r.State = hd.State := by
  obtain ⟨status, tr, hs, hf, hb⟩ := retrieve_ok_spec m results h
  refine ⟨status, tr, hs, hf, ?_⟩
  intro i g r hg hr
  obtain ⟨hd, hhd, hmk⟩ := buildResults_get _ _ hb i g r hg hr
  exact ⟨hd, hhd, by simp [hmk, mkResult], by simp [hmk, mkResult],
    by simp [hmk, mkResult]⟩

/-- Witness for C10 at the concrete three-fragment driver `M1`: the
two-fragment message carries the first fragment's header fields even
though its second fragment differs in every field. -/
theorem retrieveAllSms_header_fields_witness :
    ∃ status tr, M1.smsStatus = .ok status ∧
      fetchLoop M1 none (expectedCount status) = .ok tr ∧
      ∀ (i : Nat), ∀ g r, (linkSMS (tr.map Prod.snd))[i]? = some g →
        ([R1, R2])[i]? = some r →
        ∃ hd, g.head? = some hd ∧
          r.Date = hd.DateTime ∧ r.Number = hd.Number ∧ r.State = hd.State :=
  retrieveAllSms_header_fields M1 [R1, R2] rfl

/-- C2 counterexample: the claim that `deleteSms` always issues one
driver deletion call per listed location fails.  `retrieveAllSms M1`
returns the two-location message `R1`, yet against the driver `MDel`,
whose `DeleteSMS` raises at location 1, `deleteSms` issues only one call:
the exception escapes the `list(map(...))` and aborts the rest. -/
theorem deleteSms_call_count_cex :
    retrieveAllSms M1 = .ok [R1, R2] ∧
    R1.Locations.length = 2 ∧
    (deleteSms MDel R1).length ≠ R1.Locations.length :=
  ⟨rfl, rfl, by decide⟩

/-- C2 (amended): for every logical message returned by `retrieveAllSms`,
its `Locations` list is exactly the location of every fragment linked
into the message, in fragment-sequence order, and its length equals the
number of linked fragments; and when no driver deletion call fails,
`deleteSms` applied to that message issues exactly one deletion call per
listed location. -/
theorem retrieveAllSms_locations_delete (m : Machine) (results : List SmsResult)
    (h : retrieveAllSms m = .ok results) :
    ∃ status tr, m.smsStatus = .ok status ∧
      fetchLoop m none (expectedCount status) = .ok tr ∧
      ∀ (i : Nat), ∀ g r, (linkSMS (tr.map Prod.snd))[i]? = some g →
        results[i]? = some r →
        r.Locations = g.map Fragment.Location ∧
        r.Locations.length = g.length ∧
        ∀ m2 : Machine, (∀ l ∈ r.Locations, m2.deleteResult l = .ok ()) →
          deleteSms m2 r = r.Locations := by
  obtain ⟨status, tr, hs, hf, hb⟩ := retrieve_ok_spec m results h
  refine ⟨status, tr, hs, hf, ?_⟩
  intro i g r hg hr
  obtain ⟨hd, hhd, hmk⟩ := buildResults_get _ _ hb i g r hg hr
  subst hmk
  refine ⟨rfl, by simp [mkResult], ?_⟩
  intro m2 hok
  unfold deleteSms
  rw [deleteLoop_all_ok m2 _ hok]

/-- Witness for the amended C2 at the concrete three-fragment driver
`M1`. -/
theorem retrieveAllSms_locations_delete_witness :
    ∃ status tr, M1.smsStatus = .ok status ∧
      fetchLoop M1 none (expectedCount status) = .ok tr ∧
      ∀ (i : Nat), ∀ g r, (linkSMS (tr.map Prod.snd))[i]? = some g →
        ([R1, R2])[i]? = some r →
        r.Locations = g.map Fragment.Location ∧
        r.Locations.length = g.length ∧
        ∀ m2 : Machine, (∀ l ∈ r.Locations, m2.deleteResult l = .ok ()) →
          deleteSms m2 r = r.Locations :=
  retrieveAllSms_locations_delete M1 [R1, R2] rfl

/-- C3 counterexample: the claim that locations are deleted independently
fails.  Against the driver `MDel`, whose `DeleteSMS` raises at location 1,
deleting the message `R1` with locations `[1, 2]` never attempts
location 2: the single `try` wraps the whole `list(map(...))`, so the
first failure aborts the remaining deletions (the exception itself is
swallowed, as witnessed by the escaped error recorded by the loop). -/
theorem deleteSms_independence_cex :
    (2 : Nat) ∈ R1.Locations ∧
    (deleteLoop MDel R1.Locations).2 = some (.other "delete failed") ∧
    (2 : Nat) ∉ deleteSms MDel R1 := by
  decide

/-- C3 (amended): `deleteSms` never propagates a deletion failure (the
exception is caught and the function returns normally), and locations are
attempted in order: when every deletion succeeds all listed locations are
attempted, but a failure at one location aborts the attempts on every
remaining location. -/
theorem deleteSms_best_effort :
    (∀ (m : Machine) (s : SmsResult),
        (∀ l ∈ s.Locations, m.deleteResult l = .ok ()) →
        deleteSms m s = s.Locations) ∧
    (∀ (m : Machine) (s : SmsResult) (done : List Nat) (l : Nat)
        (rest : List Nat) (e : GammuError),
        s.Locations = done ++ l :: rest →
        (∀ x ∈ done, m.deleteResult x = .ok ()) →
        m.deleteResult l = .error e →
        deleteSms m s = done ++ [l]) := by
  constructor
  · intro m s hok
    unfold deleteSms
    rw [deleteLoop_all_ok m _ hok]
  · intro m s done l rest e hsplit hok hl
    unfold deleteSms
    rw [hsplit, deleteLoop_fail m e done l rest hok hl]

/-- Witness for the amended C3: against `M1` every location of `R1` is
attempted; against `MDel` the failure at location 1 stops the loop right
after it. -/
theorem deleteSms_best_effort_witness :
    deleteSms M1 R1 = R1.Locations ∧ deleteSms MDel R1 = [] ++ [1] :=
  ⟨deleteSms_best_effort.1 M1 R1 (fun _ _ => rfl),
   deleteSms_best_effort.2 MDel R1 [] 1 [2] (.other "delete failed") rfl
     (fun x hx => absurd hx (by simp)) rfl⟩

/-- C6: when `Init` succeeds, the SIM reports that a PIN is required and
the supplied pin is absent or empty, `init_state_machine` terminates the
process with exit status 1 and never returns a handle. -/
theorem init_pin_missing_exits (m : InitMachine) (pin : Option String)
    (hinit : m.initResult = .ok ())
    (hsec : m.securityStatus = .ok "PIN")
    (hpin : pin = none ∨ pin = some "") :
    init_state_machine pin m = .exited 1 ∧
    init_state_machine pin m ≠ .returned := by
  have hx : init_state_machine pin m = .exited 1 := by
    rcases hpin with hp | hp <;> subst hp <;>
      simp [init_state_machine, hinit, hsec]
  refine ⟨hx, ?_⟩
  rw [hx]
  intro hc
  exact InitOutcome.noConfusion hc

/-- Witness for C6 at the concrete PIN-requiring driver `IM1`, for both
an absent and an empty pin. -/
theorem init_pin_missing_exits_witness :
    (init_state_machine none IM1 = .exited 1 ∧
      init_state_machine none IM1 ≠ .returned) ∧
    (init_state_machine (some "") IM1 = .exited 1 ∧
      init_state_machine (some "") IM1 ≠ .returned) :=
  ⟨init_pin_missing_exits IM1 none rfl rfl (Or.inl rfl),
   init_pin_missing_exits IM1 (some "") rfl rfl (Or.inr rfl)⟩

/-- C7: when driver initialization fails with the no-SIM condition,
`init_state_machine` raises nothing and still returns the (non-null)
state-machine handle. -/
theorem init_nosim_returns (m : InitMachine) (pin : Option String)
    (h : m.initResult = .error .ERR_NOSIM) :
    init_state_machine pin m = .returned := by
  unfold init_state_machine
  rw [h]

/-- Witness for C7 at the concrete no-SIM driver `IM2`. -/
theorem init_nosim_returns_witness :
    init_state_machine none IM2 = .returned :=
  init_nosim_returns IM2 none rfl

/-- C9: when driver initialization fails for any reason other than the
no-SIM condition, `init_state_machine` re-raises the failure to the
caller and does not return a handle. -/
theorem init_other_error_raises (m : InitMachine) (pin : Option String)
    (e : GammuError) (h : m.initResult = .error e) (hne : e ≠ .ERR_NOSIM) :
    init_state_machine pin m = .raised e ∧
    init_state_machine pin m ≠ .returned := by
  have hx : init_state_machine pin m = .raised e := by
    unfold init_state_machine
    rw [h]
    cases e with
    | ERR_NOSIM => exact absurd rfl hne
    | ERR_EMPTY => rfl
    | other msg => rfl
  refine ⟨hx, ?_⟩
  rw [hx]
  intro hc
  exact InitOutcome.noConfusion hc

/-- Witness for C9 at the concrete failing driver `IM3`. -/
theorem init_other_error_raises_witness :
    init_state_machine none IM3 = .raised (.other "no device") ∧
    init_state_machine none IM3 ≠ .returned :=
  init_other_error_raises IM3 none (.other "no device") rfl (by decide)

/-- C8: any error raised during retrieval aborts the batch and is
propagated unchanged to the caller: a failing status query, a failing
fragment fetch, and a failing result-building pass each make
`retrieveAllSms` return exactly that error (by its return type it then
returns no result list at all). -/
theorem retrieveAllSms_error_propagation :
    (∀ (m : Machine) (e : GammuError),
        m.smsStatus = .error e → retrieveAllSms m = .error e) ∧
    (∀ (m : Machine) (status : SmsStatus) (e : GammuError),
        m.smsStatus = .ok status →
        fetchLoop m none (expectedCount status) = .error e →
        retrieveAllSms m = .error e) ∧
    (∀ (m : Machine) (status : SmsStatus)
        (tr : List (Option Nat × Fragment)) (e : GammuError),
        m.smsStatus = .ok status →
        fetchLoop m none (expectedCount status) = .ok tr →
        buildResults (linkSMS (tr.map Prod.snd)) = .error e →
        retrieveAllSms m = .error e) := by
  refine ⟨?_, ?_, ?_⟩
  · intro m e h
    unfold retrieveAllSms
    rw [h]
  · intro m status e hs hf
    unfold retrieveAllSms
    simp [hs, hf]
  · intro m status tr e hs hf hb
    unfold retrieveAllSms
    simp [hs, hf, hb]

/-- Witness for C8: a failing status query (`Mbad`) and a failing first
fetch (`MEmpty`, whose status promises a fragment that is not there) each
propagate their error out of `retrieveAllSms`. -/
theorem retrieveAllSms_error_propagation_witness :
    retrieveAllSms Mbad = .error (.other "status failed") ∧
    retrieveAllSms MEmpty = .error .ERR_EMPTY :=
  ⟨retrieveAllSms_error_propagation.1 Mbad (.other "status failed") rfl,
   retrieveAllSms_error_propagation.2.1 MEmpty
     { SIMUsed := 1, PhoneUsed := 0, TemplatesUsed := 0 } .ERR_EMPTY rfl rfl⟩

end SmsGateway
